import Mathlib

/-!
Verification of the ISECNet/ISECMobile protocol core of the
`addons-alarma-intelbras` bridge.

Bytes are modelled as `Nat` values; byte strings as `List Nat`.  A
predicate `ValidBytes` records the `< 256` range where it matters.
Every definition is a direct translation of the corresponding Python
function, keeping the source's names where Lean allows it.
-/

/-- All elements of the list fit in one byte. -/
def ValidBytes (l : List Nat) : Prop := ∀ b ∈ l, b < 256

instance (l : List Nat) : Decidable (ValidBytes l) := by
  unfold ValidBytes; infer_instance

namespace Checksum

/-- `Checksum.calculate` from `isecnet/protocol/checksum.py`: XOR of all
bytes, then XOR with `0xFF`. -/
def calculate (data : List Nat) : Nat :=
  Nat.xor (data.foldl Nat.xor 0) 0xFF

/-- `Checksum.verify`: the checksum of `data` equals the expected byte. -/
def verify (data : List Nat) (expected : Nat) : Bool :=
  calculate data == expected

/-- `Checksum.append`: data with its checksum byte appended. -/
def append (data : List Nat) : List Nat :=
  data ++ [calculate data]

/-- `Checksum.validate_packet`: packets shorter than 2 bytes are invalid,
otherwise the last byte must be the checksum of the rest. -/
def validate_packet (packet : List Nat) : Bool :=
  if packet.length < 2 then false
  else verify packet.dropLast (packet.getLastD 0)

end Checksum

/-- `ISECNetFrame` (`isecnet/protocol/isecnet.py`): outer transport
frame, a command byte plus content bytes. -/
structure ISECNetFrame where
  command : Nat
  content : List Nat
deriving DecidableEq, Repr

namespace ISECNetFrame

/-- `ISECNetFrame.create_mobile_frame`: wraps ISECMobile content under
command `0xE9`. -/
def create_mobile_frame (isecmobileContent : List Nat) : ISECNetFrame :=
  ⟨0xE9, isecmobileContent⟩

/-- `ISECNetFrame.create_heartbeat`: the 0xF7 frame with empty content. -/
def create_heartbeat : ISECNetFrame := ⟨0xF7, []⟩

/-- `ISECNetFrame.create_simple_ack`: command byte `0xFE`, no content. -/
def create_simple_ack : ISECNetFrame := ⟨0xFE, []⟩

/-- `ISECNetFrame.build`: `[size, command] ++ content` with the checksum
appended, where `size = 1 + len(content)`. -/
def build (f : ISECNetFrame) : List Nat :=
  Checksum.append ([1 + f.content.length, f.command] ++ f.content)

/-- `ISECNetFrame.try_parse` (and the checks of `parse`): `none` exactly
where the Python `parse` raises `ISECNetError`. -/
def tryParse (data : List Nat) : Option ISECNetFrame :=
  if data.length < 3 then none
  else
    let size := data.headD 0
    if data.length ≠ size + 2 then none
    else if ¬ Checksum.validate_packet data then none
    else some ⟨data.getD 1 0, (data.drop 2).dropLast⟩

end ISECNetFrame

/-- `ISECMobileFrame` (`isecnet/protocol/isecmobile.py`): inner command
frame with password, command and content byte strings. -/
structure ISECMobileFrame where
  password : List Nat
  command : List Nat
  content : List Nat
deriving DecidableEq, Repr

namespace ISECMobileFrame

/-- `ISECMobileFrame.create`: validates the password length (4..6), the
command length (1..2) and the content length (≤ 52); `none` exactly
where the Python code raises `ISECMobileError`. -/
def create (password command content : List Nat) : Option ISECMobileFrame :=
  if ¬ (4 ≤ password.length ∧ password.length ≤ 6) then none
  else if ¬ (1 ≤ command.length ∧ command.length ≤ 2) then none
  else if ¬ (content.length ≤ 52) then none
  else some ⟨password, command, content⟩

/-- `ISECMobileFrame.build`: `0x21 | password | command | content | 0x21`. -/
def build (f : ISECMobileFrame) : List Nat :=
  [0x21] ++ f.password ++ f.command ++ f.content ++ [0x21]

/-- The password-length scan of `ISECMobileFrame.parse`: the first index
`i` in `range(4, min(7, len(inner) - 1))` whose byte lies in
`0x41..0x50`, defaulting to 4. -/
def scanPasswordLen (inner : List Nat) : Nat :=
  let lim := min 7 (inner.length - 1)
  let hit := fun i => decide (i < lim) &&
    (0x41 ≤ inner.getD i 0 && inner.getD i 0 ≤ 0x50)
  if hit 4 then 4 else if hit 5 then 5 else if hit 6 then 6 else 4

/-- `ISECMobileFrame.try_parse` (and the checks of `parse`): delimiters,
minimum sizes, the heuristic password-length scan, then a one-byte
command and the rest as content. -/
def tryParse (data : List Nat) : Option ISECMobileFrame :=
  if data.length < 6 then none
  else if data.headD 0 ≠ 0x21 then none
  else if data.getLastD 0 ≠ 0x21 then none
  else
    let inner := (data.drop 1).dropLast
    if inner.length < 4 + 1 then none
    else
      let pl := scanPasswordLen inner
      let remaining := inner.drop pl
      match remaining with
      | [] => none
      | c :: rest => some ⟨inner.take pl, [c], rest⟩

end ISECMobileFrame

/-- `Command.build` (`isecnet/protocol/commands/base.py`): build the
ISECMobile frame via `create`, wrap it in an ISECNet frame and emit the
bytes.  `none` where `create` would raise. -/
def Command.build (password : List Nat) (code : Nat) (content : List Nat) :
    Option (List Nat) :=
  (ISECMobileFrame.create password [code] content).map fun m =>
    (ISECNetFrame.create_mobile_frame m.build).build

/-- `ActivationCommand.build_content`: empty for all partitions
(`None` or `PartitionCode.ALL = 0x00`), else the partition byte. -/
def ActivationCommand.build_content (partition : Option Nat) : List Nat :=
  match partition with
  | none => []
  | some p => if p = 0 then [] else [p]

/-- `ActivationCommand` (code 0x41) final bytes. -/
def ActivationCommand.build (password : List Nat) (partition : Option Nat) :
    Option (List Nat) :=
  Command.build password 0x41 (ActivationCommand.build_content partition)

/-- `DeactivationCommand.build_content`: same partition encoding as
activation. -/
def DeactivationCommand.build_content (partition : Option Nat) : List Nat :=
  match partition with
  | none => []
  | some p => if p = 0 then [] else [p]

/-- `DeactivationCommand` (code 0x44) final bytes. -/
def DeactivationCommand.build (password : List Nat) (partition : Option Nat) :
    Option (List Nat) :=
  Command.build password 0x44 (DeactivationCommand.build_content partition)

/-- The ASCII bytes of the password string `"1234"`. -/
def password1234 : List Nat := [0x31, 0x32, 0x33, 0x34]

/-- C1 -- Building the arm-all command with password `"1234"` yields
exactly `08 E9 21 31 32 33 34 41 21 5B`, and building the
disarm-partition-A command with `"1234"` yields exactly
`09 E9 21 31 32 33 34 44 41 21 1E`: the outer ISECNet frame carries a
length byte equal to `1 +` the content length and an XOR-then-`0xFF`
checksum. -/
theorem arm_disarm_build_bytes :
    ActivationCommand.build password1234 none =
      some [0x08, 0xE9, 0x21, 0x31, 0x32, 0x33, 0x34, 0x41, 0x21, 0x5B] ∧
    DeactivationCommand.build password1234 (some 0x41) =
      some [0x09, 0xE9, 0x21, 0x31, 0x32, 0x33, 0x34, 0x44, 0x41, 0x21, 0x1E] := by
  constructor <;> decide

/-- Helper: the ISECNet round trip holds for every frame, with no
constraint beyond the claim's own (the length byte is `1 + |content|`
and the appended checksum always validates). -/
theorem isecnet_tryParse_build (f : ISECNetFrame) :
    ISECNetFrame.tryParse f.build = some f := by
  obtain ⟨cmd, content⟩ := f
  show ISECNetFrame.tryParse
      (([1 + content.length, cmd] ++ content) ++
        [Checksum.calculate ([1 + content.length, cmd] ++ content)]) = _
  set l := [1 + content.length, cmd] ++ content with hl
  set A := l ++ [Checksum.calculate l] with hA
  have hAcons : A = (1 + content.length) :: cmd :: (content ++ [Checksum.calculate l]) := by
    simp [hA, hl]
  have hlenA : A.length = content.length + 3 := by
    simp [hA, hl]
  have hhead : A.headD 0 = 1 + content.length := by
    rw [hAcons]; rfl
  have hvalid : Checksum.validate_packet A = true := by
    rw [Checksum.validate_packet, if_neg (by omega)]
    rw [hA, List.dropLast_concat, List.getLastD_concat]
    simp [Checksum.verify]
  rw [ISECNetFrame.tryParse]
  rw [if_neg (by omega)]
  simp only [hhead]
  rw [if_neg (by omega)]
  rw [hvalid]
  simp only [not_true_eq_false, if_false]
  have hgd : A.getD 1 0 = cmd := by rw [hAcons]; rfl
  have hdrop : (A.drop 2).dropLast = content := by
    rw [hAcons]
    show ((content ++ [Checksum.calculate l])).dropLast = content
    exact List.dropLast_concat
  rw [hgd, hdrop]

/-- Helper: the ISECMobile round trip holds when the password has
exactly 4 bytes and the opcode is one byte, provided the content is
empty or the opcode lies in the scan range `0x41..0x50`. -/
theorem isecmobile_tryParse_build (p0 p1 p2 p3 c : Nat) (bs : List Nat)
    (hc : bs = [] ∨ (0x41 ≤ c ∧ c ≤ 0x50)) :
    ISECMobileFrame.tryParse (ISECMobileFrame.build ⟨[p0, p1, p2, p3], [c], bs⟩) =
      some ⟨[p0, p1, p2, p3], [c], bs⟩ := by
  have hbuild : ISECMobileFrame.build ⟨[p0, p1, p2, p3], [c], bs⟩ =
      0x21 :: ((p0 :: p1 :: p2 :: p3 :: c :: bs) ++ [0x21]) := by
    simp [ISECMobileFrame.build]
  rw [hbuild, ISECMobileFrame.tryParse]
  have hlen : (0x21 :: ((p0 :: p1 :: p2 :: p3 :: c :: bs) ++ [0x21])).length =
      bs.length + 7 := by simp
  rw [if_neg (by omega)]
  rw [if_neg (by exact fun h => h rfl)]
  rw [if_neg (by
    simp only [List.getLastD_cons]
    rw [List.getLastD_concat]
    exact fun h => h rfl)]
  simp only [List.drop_one, List.tail_cons, List.dropLast_concat]
  set inner := p0 :: p1 :: p2 :: p3 :: c :: bs with hinner
  have hinnerlen : inner.length = bs.length + 5 := by simp [hinner]
  rw [if_neg (by omega)]
  have hscan : ISECMobileFrame.scanPasswordLen inner = 4 := by
    rcases bs with _ | ⟨b, bs'⟩
    · simp [ISECMobileFrame.scanPasswordLen, hinner]
    · rcases hc with h | ⟨h1, h2⟩
      · exact absurd h (by simp)
      · have hget : inner.getD 4 0 = c := by rw [hinner]; rfl
        have hlim : 4 < min 7 (inner.length - 1) := by
          rw [hinner]; simp only [List.length_cons]; omega
        rw [ISECMobileFrame.scanPasswordLen]
        simp only []
        rw [if_pos (by
          simp only [Bool.and_eq_true, decide_eq_true_eq, hget]
          exact ⟨hlim, h1, h2⟩)]
  rw [hscan]
  have htake : inner.take 4 = [p0, p1, p2, p3] := by simp [hinner]
  have hdrop : inner.drop 4 = c :: bs := by simp [hinner]
  rw [hdrop, htake]

/-- C2 counterexample -- A valid ISECMobile frame (5-digit password
`"12345"`, opcode 0x5A, empty content, so `|content| ≤ 253`) that the
builder accepts but whose built bytes parse back to a different frame:
the heuristic password scan yields password `"1234"`, opcode `0x35` and
content `[0x5A]`. -/
theorem isecmobile_roundtrip_cex :
    ISECMobileFrame.create [0x31, 0x32, 0x33, 0x34, 0x35] [0x5A] [] =
      some ⟨[0x31, 0x32, 0x33, 0x34, 0x35], [0x5A], []⟩ ∧
    ISECMobileFrame.tryParse
        (ISECMobileFrame.build ⟨[0x31, 0x32, 0x33, 0x34, 0x35], [0x5A], []⟩) =
      some ⟨[0x31, 0x32, 0x33, 0x34], [0x35], [0x5A]⟩ ∧
    (⟨[0x31, 0x32, 0x33, 0x34], [0x35], [0x5A]⟩ : ISECMobileFrame) ≠
      ⟨[0x31, 0x32, 0x33, 0x34, 0x35], [0x5A], []⟩ := by
  refine ⟨by decide, by decide, by decide⟩

/-- C2 (amended) -- The ISECNet layer round-trips every frame whose
content has at most 253 bytes: `parse (build f) = some f`.  The
ISECMobile layer round-trips only under the password-scan heuristic's
assumptions: password of exactly 4 bytes and a one-byte opcode, with
content empty or opcode in `0x41..0x50`. -/
theorem frame_roundtrip_amended :
    (∀ f : ISECNetFrame, f.content.length ≤ 253 → ValidBytes f.content →
      f.command < 256 → ISECNetFrame.tryParse f.build = some f) ∧
    (∀ (p0 p1 p2 p3 c : Nat) (bs : List Nat), bs.length ≤ 253 →
      (bs = [] ∨ (0x41 ≤ c ∧ c ≤ 0x50)) →
      ISECMobileFrame.tryParse (ISECMobileFrame.build ⟨[p0, p1, p2, p3], [c], bs⟩) =
        some ⟨[p0, p1, p2, p3], [c], bs⟩) := by
  refine ⟨fun f _ _ _ => isecnet_tryParse_build f, ?_⟩
  intro p0 p1 p2 p3 c bs _ hc
  exact isecmobile_tryParse_build p0 p1 p2 p3 c bs hc

/-- Witness for `frame_roundtrip_amended` at concrete frames. -/
theorem frame_roundtrip_amended_witness :
    ISECNetFrame.tryParse (ISECNetFrame.build ⟨0xE9, [0xFE]⟩) = some ⟨0xE9, [0xFE]⟩ ∧
    ISECMobileFrame.tryParse
        (ISECMobileFrame.build ⟨[0x31, 0x32, 0x33, 0x34], [0x41], []⟩) =
      some ⟨[0x31, 0x32, 0x33, 0x34], [0x41], []⟩ :=
  ⟨frame_roundtrip_amended.1 ⟨0xE9, [0xFE]⟩ (by decide) (by decide) (by decide),
   frame_roundtrip_amended.2 0x31 0x32 0x33 0x34 0x41 [] (by decide) (Or.inl rfl)⟩

/-- `ISECNetFrameReader._try_extract_frame`
(`isecnet/protocol/isecnet.py`): one step of the extraction loop.
`none` means no progress (the Python method returns `False`);
`some (of, buf')` means progress with optionally one emitted frame and
the new buffer. -/
def tryExtractFrame (buffer : List Nat) : Option (Option ISECNetFrame × List Nat) :=
  match buffer with
  | [] => none
  | b :: rest =>
    if b = 0xF7 then some (some ⟨0xF7, []⟩, rest)
    else if (b :: rest).length < 3 then none
    else if b < 1 then some (none, rest)
    else if (b :: rest).length < b + 2 then none
    else
      match ISECNetFrame.tryParse ((b :: rest).take (b + 2)) with
      | some f => some (some f, (b :: rest).drop (b + 2))
      | none => some (none, rest)

/-- Every progress step of the extraction loop strictly shrinks the
buffer. -/
theorem tryExtractFrame_progress (buffer : List Nat)
    (of : Option ISECNetFrame) (buf' : List Nat)
    (h : tryExtractFrame buffer = some (of, buf')) :
    buf'.length < buffer.length := by
  match buffer with
  | [] => simp [tryExtractFrame] at h
  | b :: rest =>
    rw [tryExtractFrame] at h
    split_ifs at h with h1 h2 h3 h4
    · simp only [Option.some.injEq, Prod.mk.injEq] at h
      obtain ⟨-, rfl⟩ := h
      simp
    · simp only [Option.some.injEq, Prod.mk.injEq] at h
      obtain ⟨-, rfl⟩ := h
      simp
    · revert h
      split
      · intro h
        simp only [Option.some.injEq, Prod.mk.injEq] at h
        obtain ⟨-, rfl⟩ := h
        simp only [List.length_drop, List.length_cons]
        omega
      · intro h
        simp only [Option.some.injEq, Prod.mk.injEq] at h
        obtain ⟨-, rfl⟩ := h
        simp

/-- The extraction loop of `ISECNetFrameReader.feed`: repeat
`_try_extract_frame` until it reports no progress; return the emitted
frames and the final buffer. -/
def feedLoop (buffer : List Nat) : List ISECNetFrame × List Nat :=
  match h : tryExtractFrame buffer with
  | none => ([], buffer)
  | some (of, buf') =>
    let r := feedLoop buf'
    (of.toList ++ r.1, r.2)
termination_by buffer.length
decreasing_by exact tryExtractFrame_progress buffer of buf' h

/-- Number of progress iterations the extraction loop performs. -/
def feedSteps (buffer : List Nat) : Nat :=
  match h : tryExtractFrame buffer with
  | none => 0
  | some (_, buf') => feedSteps buf' + 1
termination_by buffer.length
decreasing_by exact tryExtractFrame_progress buffer _ buf' h

/-- `ISECNetFrameReader.feed`: append the incoming data to the buffer
and run the extraction loop; returns the frames and the new buffer. -/
def ISECNetFrameReader.feed (buffer data : List Nat) :
    List ISECNetFrame × List Nat :=
  feedLoop (buffer ++ data)

/-- One chunk of a multi-chunk feed: run `feed` on the current buffer
and accumulate the emitted frames. -/
def feedStep (acc : List ISECNetFrame × List Nat) (d : List Nat) :
    List ISECNetFrame × List Nat :=
  let r := ISECNetFrameReader.feed acc.2 d
  (acc.1 ++ r.1, r.2)

/-- Feeding a list of chunks one by one, accumulating emitted frames. -/
def ISECNetFrameReader.feedAll (chunks : List (List Nat)) (buffer : List Nat) :
    List ISECNetFrame × List Nat :=
  chunks.foldl feedStep ([], buffer)

/-- A progress step only looks at the bytes it consumes: appending more
data to the buffer preserves the step and its emitted frame. -/
theorem tryExtractFrame_append (b y : List Nat) (of : Option ISECNetFrame)
    (b' : List Nat) (h : tryExtractFrame b = some (of, b')) :
    tryExtractFrame (b ++ y) = some (of, b' ++ y) := by
  match b with
  | [] => simp [tryExtractFrame] at h
  | hb :: rest =>
    rw [tryExtractFrame] at h
    rw [List.cons_append, tryExtractFrame]
    split_ifs at h with h1 h2 h3 h4
    · simp only [Option.some.injEq, Prod.mk.injEq] at h
      obtain ⟨rfl, rfl⟩ := h
      rw [if_pos h1]
    · have hlen : ¬ (hb :: (rest ++ y)).length < 3 := by
        simp only [List.length_cons, List.length_append]
        simp only [List.length_cons] at h2
        omega
      simp only [Option.some.injEq, Prod.mk.injEq] at h
      obtain ⟨rfl, rfl⟩ := h
      rw [if_neg h1, if_neg hlen, if_pos h3]
    · have hlen : ¬ (hb :: (rest ++ y)).length < 3 := by
        simp only [List.length_cons, List.length_append]
        simp only [List.length_cons] at h2
        omega
      have hlen2 : ¬ (hb :: (rest ++ y)).length < hb + 2 := by
        simp only [List.length_cons, List.length_append]
        simp only [List.length_cons] at h4
        omega
      have hb2 : hb + 2 ≤ (hb :: rest).length := by
        simp only [List.length_cons] at h4 ⊢
        omega
      have htake : (hb :: (rest ++ y)).take (hb + 2) = (hb :: rest).take (hb + 2) := by
        rw [← List.cons_append, List.take_append_of_le_length hb2]
      have hdrop : (hb :: (rest ++ y)).drop (hb + 2) = (hb :: rest).drop (hb + 2) ++ y := by
        rw [← List.cons_append, List.drop_append_of_le_length hb2]
      rw [if_neg h1, if_neg hlen, if_neg h3, if_neg hlen2, htake]
      revert h
      split
      · intro h
        simp only [Option.some.injEq, Prod.mk.injEq] at h
        obtain ⟨rfl, rfl⟩ := h
        rw [hdrop]
      · intro h
        simp only [Option.some.injEq, Prod.mk.injEq] at h
        obtain ⟨rfl, rfl⟩ := h
        rfl

/-- A buffer on which the extraction loop makes no progress is left
unchanged and emits nothing. -/
theorem feedLoop_stall (buffer : List Nat) (h : tryExtractFrame buffer = none) :
    feedLoop buffer = ([], buffer) := by
  rw [feedLoop]
  split
  · rfl
  · rename_i heq
    rw [h] at heq
    cases heq

/-- Unfolding equation of `feedLoop` on a progress step. -/
theorem feedLoop_progress (buffer : List Nat) (of : Option ISECNetFrame)
    (buf' : List Nat) (h : tryExtractFrame buffer = some (of, buf')) :
    feedLoop buffer = (of.toList ++ (feedLoop buf').1, (feedLoop buf').2) := by
  rw [feedLoop]
  split
  · rename_i heq
    rw [h] at heq
    cases heq
  · rename_i of2 buf2 heq
    rw [h] at heq
    simp only [Option.some.injEq, Prod.mk.injEq] at heq
    obtain ⟨rfl, rfl⟩ := heq
    rfl

/-- Fuel-indexed form: the residual buffer of the extraction loop is
always a stall state. -/
theorem feedLoop_residual_stall_aux :
    ∀ (n : Nat) (buffer : List Nat), buffer.length ≤ n →
      tryExtractFrame (feedLoop buffer).2 = none := by
  intro n
  induction n with
  | zero =>
    intro buffer hb
    have hnil : buffer = [] := List.eq_nil_of_length_eq_zero (Nat.le_zero.mp hb)
    subst hnil
    rw [feedLoop_stall [] rfl]
    rfl
  | succ n ih =>
    intro buffer hb
    cases hstep : tryExtractFrame buffer with
    | none =>
      rw [feedLoop_stall buffer hstep]
      exact hstep
    | some r =>
      obtain ⟨of, buf'⟩ := r
      rw [feedLoop_progress buffer of buf' hstep]
      have hlt := tryExtractFrame_progress buffer of buf' hstep
      exact ih buf' (by omega)

/-- The residual buffer of the extraction loop is always a stall state. -/
theorem feedLoop_residual_stall (buffer : List Nat) :
    tryExtractFrame (feedLoop buffer).2 = none :=
  feedLoop_residual_stall_aux buffer.length buffer le_rfl

/-- Fuel-indexed splitting lemma: running the loop on `b ++ y` is the
same as running it on `b`, then running it on the residual buffer
extended with `y`. -/
theorem feedLoop_append_aux :
    ∀ (n : Nat) (b y : List Nat), b.length ≤ n →
      feedLoop (b ++ y) =
        ((feedLoop b).1 ++ (feedLoop ((feedLoop b).2 ++ y)).1,
          (feedLoop ((feedLoop b).2 ++ y)).2) := by
  intro n
  induction n with
  | zero =>
    intro b y hb
    have hnil : b = [] := List.eq_nil_of_length_eq_zero (Nat.le_zero.mp hb)
    subst hnil
    rw [feedLoop_stall [] rfl]
    simp
  | succ n ih =>
    intro b y hb
    cases hstep : tryExtractFrame b with
    | none =>
      rw [feedLoop_stall b hstep]
      simp
    | some r =>
      obtain ⟨of, b'⟩ := r
      have hstep2 := tryExtractFrame_append b y of b' hstep
      have hlt := tryExtractFrame_progress b of b' hstep
      rw [feedLoop_progress b of b' hstep,
        feedLoop_progress (b ++ y) of (b' ++ y) hstep2,
        ih b' y (by omega)]
      simp [List.append_assoc]

/-- Splitting lemma for `feedLoop` over an append. -/
theorem feedLoop_append (b y : List Nat) :
    feedLoop (b ++ y) =
      ((feedLoop b).1 ++ (feedLoop ((feedLoop b).2 ++ y)).1,
        (feedLoop ((feedLoop b).2 ++ y)).2) :=
  feedLoop_append_aux b.length b y le_rfl

/-- `feedSteps` on a stall state performs zero iterations. -/
theorem feedSteps_stall (buffer : List Nat)
    (h : tryExtractFrame buffer = none) : feedSteps buffer = 0 := by
  rw [feedSteps]
  split
  · rfl
  · rename_i heq
    rw [h] at heq
    cases heq

/-- `feedSteps` on a progress step counts one more iteration. -/
theorem feedSteps_progress (buffer : List Nat) (of : Option ISECNetFrame)
    (buf' : List Nat) (h : tryExtractFrame buffer = some (of, buf')) :
    feedSteps buffer = feedSteps buf' + 1 := by
  rw [feedSteps]
  split
  · rename_i heq
    rw [h] at heq
    cases heq
  · rename_i f2 b2 heq
    rw [h] at heq
    simp only [Option.some.injEq, Prod.mk.injEq] at heq
    obtain ⟨-, rfl⟩ := heq
    rfl

/-- From a stall state, feeding chunks one by one accumulates exactly
the frames that feeding the whole concatenation would emit, and the
final buffers agree. -/
theorem feedAll_eq_feed_join_aux :
    ∀ (chunks : List (List Nat)) (fs0 : List ISECNetFrame) (buffer : List Nat),
      tryExtractFrame buffer = none →
      chunks.foldl feedStep (fs0, buffer) =
      (fs0 ++ (feedLoop (buffer ++ chunks.flatten)).1,
        (feedLoop (buffer ++ chunks.flatten)).2) := by
  intro chunks
  induction chunks with
  | nil =>
    intro fs0 buffer hstall
    simp [feedLoop_stall buffer hstall]
  | cons c cs ih =>
    intro fs0 buffer hstall
    have hstep : feedStep (fs0, buffer) c =
        (fs0 ++ (feedLoop (buffer ++ c)).1, (feedLoop (buffer ++ c)).2) := rfl
    simp only [List.foldl_cons, hstep]
    rw [ih (fs0 ++ (feedLoop (buffer ++ c)).1) (feedLoop (buffer ++ c)).2
      (feedLoop_residual_stall (buffer ++ c))]
    have hj : (c :: cs).flatten = c ++ cs.flatten := by simp
    rw [hj, ← List.append_assoc buffer c cs.flatten,
      feedLoop_append (buffer ++ c) cs.flatten]
    simp [List.append_assoc]

/-- C3 -- The streaming frame reader is split-invariant: feeding any
list of chunks one by one, starting from an empty buffer, emits exactly
the frame sequence of feeding the whole concatenation at once, and the
residual buffers coincide.  The extraction logic covered includes the
one-byte 0xF7 heartbeat and the one-byte resynchronization discards. -/
theorem reader_split_invariant (chunks : List (List Nat)) :
    ISECNetFrameReader.feedAll chunks [] =
      ISECNetFrameReader.feed [] chunks.flatten := by
  rw [ISECNetFrameReader.feedAll,
    feedAll_eq_feed_join_aux chunks [] [] rfl]
  simp [ISECNetFrameReader.feed]

/-- C10 -- Termination of the extraction loop: every progress step of
`_try_extract_frame` removes at least one byte from the buffer, the
number of loop iterations is at most the number of buffered bytes, and
the buffer never grows across the loop. -/
theorem reader_feed_terminates :
    (∀ (buffer : List Nat) (of : Option ISECNetFrame) (buf' : List Nat),
      tryExtractFrame buffer = some (of, buf') → buf'.length < buffer.length) ∧
    (∀ buffer : List Nat, feedSteps buffer ≤ buffer.length) ∧
    (∀ buffer : List Nat, (feedLoop buffer).2.length ≤ buffer.length) := by
  have hsteps : ∀ (n : Nat) (buffer : List Nat), buffer.length ≤ n →
      feedSteps buffer ≤ buffer.length ∧
        (feedLoop buffer).2.length ≤ buffer.length := by
    intro n
    induction n with
    | zero =>
      intro buffer hb
      have hnil : buffer = [] := List.eq_nil_of_length_eq_zero (Nat.le_zero.mp hb)
      subst hnil
      constructor
      · rw [feedSteps_stall [] rfl]
        exact Nat.zero_le _
      · rw [feedLoop_stall [] rfl]
    | succ n ih =>
      intro buffer hb
      cases hstep : tryExtractFrame buffer with
      | none =>
        constructor
        · rw [feedSteps_stall buffer hstep]
          exact Nat.zero_le _
        · rw [feedLoop_stall buffer hstep]
      | some r =>
        obtain ⟨of, buf'⟩ := r
        have hlt := tryExtractFrame_progress buffer of buf' hstep
        have hrec := ih buf' (by omega)
        constructor
        · rw [feedSteps_progress buffer of buf' hstep]
          omega
        · rw [feedLoop_progress buffer of buf' hstep]
          show (feedLoop buf').2.length ≤ buffer.length
          omega
  refine ⟨tryExtractFrame_progress, fun buffer => ?_, fun buffer => ?_⟩
  · exact (hsteps buffer.length buffer le_rfl).1
  · exact (hsteps buffer.length buffer le_rfl).2

/-- Witness for `reader_feed_terminates`: the progress part applied to
the one-byte heartbeat buffer. -/
theorem reader_feed_terminates_witness :
    tryExtractFrame [0xF7] = some (some ⟨0xF7, []⟩, []) ∧
    ([] : List Nat).length < [0xF7].length :=
  ⟨by decide, reader_feed_terminates.1 [0xF7] (some ⟨0xF7, []⟩) [] (by decide)⟩

/-- `ResponseType` (`isecnet/protocol/responses.py`). -/
inductive ResponseType where
  | ack
  | nack
  | data
  | unknown
deriving DecidableEq, Repr

/-- `is_ack` from `isecnet/const.py`. -/
def is_ack (code : Nat) : Bool := code == 0xFE

/-- `is_nack` from `isecnet/const.py`: codes `0xE0..0xEA`. -/
def is_nack (code : Nat) : Bool := 0xE0 ≤ code && code ≤ 0xEA

/-- A classified response: type, code and data, as produced by
`Response.from_isecnet_frame`. -/
structure Response where
  response_type : ResponseType
  code : Nat
  data : List Nat
deriving DecidableEq, Repr

/-- `Response.from_isecnet_frame` (`isecnet/protocol/responses.py`):
empty content is `unknown`; content of 43 or more bytes is `data`
regardless of its first byte; otherwise classify by the first byte
(`code = content[0]`, `data = content[1:]`): `0xFE` is ack,
`0xE0..0xEA` is nack, else data when a payload remains, else unknown. -/
def Response.from_isecnet_frame (frame : ISECNetFrame) : Response :=
  if frame.content.length = 0 then ⟨ResponseType.unknown, 0, []⟩
  else if 43 ≤ frame.content.length then ⟨ResponseType.data, 0, frame.content⟩
  else if is_ack (frame.content.headD 0) then
    ⟨ResponseType.ack, frame.content.headD 0, frame.content.tail⟩
  else if is_nack (frame.content.headD 0) then
    ⟨ResponseType.nack, frame.content.headD 0, frame.content.tail⟩
  else if 0 < frame.content.tail.length then
    ⟨ResponseType.data, frame.content.headD 0, frame.content.tail⟩
  else ⟨ResponseType.unknown, frame.content.headD 0, frame.content.tail⟩

/-- `Response.is_success`: ack, or data of at least 43 bytes. -/
def Response.is_success (r : Response) : Bool :=
  r.response_type == ResponseType.ack ||
    (r.response_type == ResponseType.data && 43 ≤ r.data.length)

/-- C6 -- Response classification follows, in order: empty content is
`unknown`; content length at least 43 is `data` even when the first
byte is in the ACK/NACK ranges; then first byte `0xFE` is `ack`; first
byte in `0xE0..0xEA` is `nack` with that code; otherwise `data` when a
payload remains after the first byte, else `unknown`.  The ACK frame
`02 E9 FE EA` parses and classifies as `ack` with `is_success`. -/
theorem response_classification :
    (∀ f : ISECNetFrame,
      (f.content.length = 0 →
        (Response.from_isecnet_frame f).response_type = ResponseType.unknown) ∧
      (43 ≤ f.content.length →
        (Response.from_isecnet_frame f).response_type = ResponseType.data) ∧
      (0 < f.content.length → f.content.length < 43 →
        (f.content.headD 0 = 0xFE →
          (Response.from_isecnet_frame f).response_type = ResponseType.ack) ∧
        (0xE0 ≤ f.content.headD 0 → f.content.headD 0 ≤ 0xEA →
          (Response.from_isecnet_frame f).response_type = ResponseType.nack ∧
          (Response.from_isecnet_frame f).code = f.content.headD 0) ∧
        (f.content.headD 0 ≠ 0xFE →
          ¬ (0xE0 ≤ f.content.headD 0 ∧ f.content.headD 0 ≤ 0xEA) →
          (Response.from_isecnet_frame f).response_type =
            (if 2 ≤ f.content.length then ResponseType.data
              else ResponseType.unknown)))) ∧
    (ISECNetFrame.tryParse [0x02, 0xE9, 0xFE, 0xEA] = some ⟨0xE9, [0xFE]⟩ ∧
      (Response.from_isecnet_frame ⟨0xE9, [0xFE]⟩).response_type = ResponseType.ack ∧
      (Response.from_isecnet_frame ⟨0xE9, [0xFE]⟩).is_success = true) := by
  constructor
  · intro f
    refine ⟨?_, ?_, ?_⟩
    · intro h0
      rw [Response.from_isecnet_frame, if_pos h0]
    · intro h43
      rw [Response.from_isecnet_frame, if_neg (by omega), if_pos h43]
    · intro hpos hlt
      have hne : ¬ f.content.length = 0 := by omega
      have hn43 : ¬ 43 ≤ f.content.length := by omega
      refine ⟨?_, ?_, ?_⟩
      · intro hfe
        have hack : is_ack (f.content.headD 0) = true := by
          rw [is_ack, hfe]
          rfl
        rw [Response.from_isecnet_frame, if_neg hne, if_neg hn43, if_pos hack]
      · intro he0 hea
        have hack : is_ack (f.content.headD 0) = false := by
          rw [is_ack]
          simp only [beq_eq_false_iff_ne, ne_eq]
          omega
        have hnack : is_nack (f.content.headD 0) = true := by
          rw [is_nack]
          simp only [Bool.and_eq_true, decide_eq_true_eq]
          exact ⟨he0, hea⟩
        rw [Response.from_isecnet_frame, if_neg hne, if_neg hn43]
        rw [hack]
        simp only [Bool.false_eq_true, if_false]
        rw [hnack]
        exact ⟨rfl, rfl⟩
      · intro hnfe hnrange
        have hack : is_ack (f.content.headD 0) = false := by
          rw [is_ack]
          simp only [beq_eq_false_iff_ne, ne_eq]
          exact hnfe
        have hnack : is_nack (f.content.headD 0) = false := by
          rw [is_nack]
          simp only [Bool.and_eq_false_iff, decide_eq_false_iff_not]
          rcases Nat.lt_or_ge (f.content.headD 0) 0xE0 with h | h
          · exact Or.inl (by omega)
          · exact Or.inr (fun hle => hnrange ⟨h, hle⟩)
        rw [Response.from_isecnet_frame, if_neg hne, if_neg hn43]
        rw [hack]
        simp only [Bool.false_eq_true, if_false]
        rw [hnack]
        simp only [Bool.false_eq_true, if_false]
        have htail : f.content.tail.length = f.content.length - 1 := by
          simp
        rcases Nat.lt_or_ge f.content.length 2 with h2 | h2
        · rw [if_neg (by omega), if_neg (by omega)]
        · rw [if_pos (by omega), if_pos (by omega)]
  · refine ⟨by decide, by decide, by decide⟩

/-- Witness for `response_classification` at concrete frames: the NACK
wrong-password frame content `[0xE1]` and the empty-content frame. -/
theorem response_classification_witness :
    (Response.from_isecnet_frame ⟨0xE9, [0xE1]⟩).response_type = ResponseType.nack ∧
    (Response.from_isecnet_frame ⟨0xE9, [0xE1]⟩).code = 0xE1 ∧
    (Response.from_isecnet_frame ⟨0xE9, []⟩).response_type = ResponseType.unknown :=
  ⟨((((response_classification.1 ⟨0xE9, [0xE1]⟩).2.2 (by decide) (by decide)).2.1
      (by decide) (by decide)).1),
   ((((response_classification.1 ⟨0xE9, [0xE1]⟩).2.2 (by decide) (by decide)).2.1
      (by decide) (by decide)).2),
   ((response_classification.1 ⟨0xE9, []⟩).1 (by decide))⟩

/-- Gregorian leap-year rule, as implemented by Python's `datetime`. -/
def isLeapYear (y : Nat) : Bool :=
  y % 4 == 0 && (y % 100 != 0 || y % 400 == 0)

/-- Days in a month, as validated by Python's `datetime`. -/
def daysInMonth (y m : Nat) : Nat :=
  if m = 2 then (if isLeapYear y then 29 else 28)
  else if m = 4 ∨ m = 6 ∨ m = 9 ∨ m = 11 then 30
  else 31

/-- A naive date-time value (year, month, day, hour, minute). -/
structure PyDateTime where
  year : Nat
  month : Nat
  day : Nat
  hour : Nat
  minute : Nat
deriving DecidableEq, Repr

/-- The validity condition under which `datetime(year, month, day,
hour, minute)` succeeds, for years already known to lie in
`2000..2255`. -/
def validDateTime (y m d hh mi : Nat) : Bool :=
  1 ≤ m && m ≤ 12 && 1 ≤ d && d ≤ daysInMonth y m && hh ≤ 23 && mi ≤ 59

/-- `datetime(...)` wrapped in the `try`/`except ValueError` of the
status parsers: `none` on an invalid combination. -/
def mkPyDateTime (y m d hh mi : Nat) : Option PyDateTime :=
  if validDateTime y m d hh mi then some ⟨y, m, d, hh, mi⟩ else none

/-- The date-time field of `PartialCentralStatus.parse`
(`isecnet/protocol/commands/status.py`): parse fails (outer `none`)
unless the payload has exactly 43 bytes; the field reads hour, minute,
day, month, year-offset from bytes 23..27 as raw hex, with
`year = 2000 + byte`, and is null (inner `none`) on an invalid
combination. -/
def PartialCentralStatus.parseDatetime (data : List Nat) :
    Option (Option PyDateTime) :=
  if data.length = 43 then
    some (mkPyDateTime (2000 + data.getD 27 0) (data.getD 26 0)
      (data.getD 25 0) (data.getD 23 0) (data.getD 24 0))
  else none

/-- The date-time field of `CentralStatus.parse`: same decoding from
bytes 30..34 of the 54-byte payload. -/
def CentralStatus.parseDatetime (data : List Nat) :
    Option (Option PyDateTime) :=
  if data.length = 54 then
    some (mkPyDateTime (2000 + data.getD 34 0) (data.getD 33 0)
      (data.getD 32 0) (data.getD 30 0) (data.getD 31 0))
  else none

/-- C8 -- Status date-time fields decode as raw hexadecimal, not BCD:
date bytes `[0x12, 0x3B, 0x12, 0x0C, 0x19]` decode to 2025-12-18 18:59
(`year = 2000 + byte`) in both the 43-byte partial and the 54-byte full
status payloads, and any invalid hour/minute/day/month combination
yields a null date-time while the parse itself still succeeds. -/
theorem status_datetime_decoding :
    PartialCentralStatus.parseDatetime
        (List.replicate 23 0 ++ [0x12, 0x3B, 0x12, 0x0C, 0x19] ++
          List.replicate 15 0) =
      some (some ⟨2025, 12, 18, 18, 59⟩) ∧
    CentralStatus.parseDatetime
        (List.replicate 30 0 ++ [0x12, 0x3B, 0x12, 0x0C, 0x19] ++
          List.replicate 19 0) =
      some (some ⟨2025, 12, 18, 18, 59⟩) ∧
    (∀ data : List Nat, data.length = 43 →
      validDateTime (2000 + data.getD 27 0) (data.getD 26 0) (data.getD 25 0)
          (data.getD 23 0) (data.getD 24 0) = false →
      PartialCentralStatus.parseDatetime data = some none) ∧
    (∀ data : List Nat, data.length = 54 →
      validDateTime (2000 + data.getD 34 0) (data.getD 33 0) (data.getD 32 0)
          (data.getD 30 0) (data.getD 31 0) = false →
      CentralStatus.parseDatetime data = some none) := by
  refine ⟨by decide, by decide, ?_, ?_⟩
  · intro data hlen hinvalid
    rw [PartialCentralStatus.parseDatetime, if_pos hlen, mkPyDateTime,
      if_neg (by rw [hinvalid]; exact Bool.false_ne_true)]
  · intro data hlen hinvalid
    rw [CentralStatus.parseDatetime, if_pos hlen, mkPyDateTime,
      if_neg (by rw [hinvalid]; exact Bool.false_ne_true)]

/-- Witness for `status_datetime_decoding`: the all-zero payloads have
month 0, an invalid combination, so the decoded date-time is null. -/
theorem status_datetime_decoding_witness :
    PartialCentralStatus.parseDatetime (List.replicate 43 0) = some none ∧
    CentralStatus.parseDatetime (List.replicate 54 0) = some none :=
  ⟨status_datetime_decoding.2.2.1 (List.replicate 43 0) (by decide) (by decide),
   status_datetime_decoding.2.2.2 (List.replicate 54 0) (by decide) (by decide)⟩

/-- The zone-state update performed for one zone by
`ISECNetProtocolHandler.poll_status`
(`protocol_handlers/isecnet.py`, lines 135-142): violated zones become
`"Disparada"`, else open zones become `"Abierta"`, else the zone
becomes `"Cerrada"` unless its current state is `"Disparada"`, which is
left unchanged. -/
def updateZoneState (current : Option String) (violated opened : Bool) :
    Option String :=
  if violated then some "Disparada"
  else if opened then some "Abierta"
  else if current ≠ some "Disparada" then some "Cerrada"
  else current

/-- The full loop of `poll_status` over zones `1..zone_count`, as a map
update (`zone_states[str(zone_id)] = ...`). -/
def pollStatusZones (zoneCount : Nat) (violated opened : Nat → Bool)
    (states : Nat → Option String) : Nat → Option String :=
  fun z =>
    if 1 ≤ z ∧ z ≤ zoneCount then updateZoneState (states z) (violated z) (opened z)
    else states z

/-- C5 counterexample -- A zone currently `"Disparada"` (Triggered)
that a poll reports as open (not violated) is overwritten to
`"Abierta"`: the poll-derived update does change a Triggered zone. -/
theorem zone_triggered_sticky_cex :
    pollStatusZones 1 (fun _ => false) (fun _ => true)
        (fun _ => some "Disparada") 1 = some "Abierta" ∧
    (some "Abierta" : Option String) ≠ some "Disparada" := by
  refine ⟨rfl, by decide⟩

/-- C5 (amended) -- A Triggered zone is left unchanged only by a poll
that reports it neither violated nor open (the `"Cerrada"` branch
checks the current state); a poll that reports it open (and not
violated) overwrites `"Disparada"` with `"Abierta"`. -/
theorem zone_triggered_sticky_amended :
    ∀ (zoneCount z : Nat) (violated opened : Nat → Bool)
      (states : Nat → Option String), 1 ≤ z → z ≤ zoneCount →
      (violated z = false → opened z = false → states z = some "Disparada" →
        pollStatusZones zoneCount violated opened states z = some "Disparada") ∧
      (violated z = false → opened z = true →
        pollStatusZones zoneCount violated opened states z = some "Abierta") := by
  intro zoneCount z violated opened states h1 h2
  constructor
  · intro hv ho hs
    rw [pollStatusZones]
    rw [if_pos ⟨h1, h2⟩, updateZoneState, hv, ho]
    simp only [Bool.false_eq_true, if_false]
    rw [if_neg (by rw [hs]; simp)]
    exact hs
  · intro hv ho
    rw [pollStatusZones]
    rw [if_pos ⟨h1, h2⟩, updateZoneState, hv, ho]
    simp

/-- Witness for `zone_triggered_sticky_amended`: zone 1 of 1, reported
neither violated nor open, stays `"Disparada"`. -/
theorem zone_triggered_sticky_amended_witness :
    pollStatusZones 1 (fun _ => false) (fun _ => false)
        (fun _ => some "Disparada") 1 = some "Disparada" :=
  (zone_triggered_sticky_amended 1 1 (fun _ => false) (fun _ => false)
    (fun _ => some "Disparada") (by decide) (by decide)).1 rfl rfl rfl

/-- A value published on an MQTT topic: a number or a string. -/
inductive MqttValue where
  | num (n : Nat)
  | str (s : String)
deriving DecidableEq, Repr

/-- `battery_status_for` (`client.py`): the textual battery level from
payload byte 134; `"unknown"` when the payload is too short or the byte
is not 1..4. -/
def battery_status_for (resp : List Nat) : String :=
  if resp.length ≤ 134 then "unknown"
  else if resp.getD 134 0 = 1 then "dead"
  else if resp.getD 134 0 = 2 then "low"
  else if resp.getD 134 0 = 3 then "middle"
  else if resp.getD 134 0 = 4 then "full"
  else "unknown"

/-- `AMT8000ProtocolHandler._map_battery_status_to_percentage`
(`protocol_handlers/amt8000.py`): a dictionary lookup whose default,
for any status outside the four known levels, is the number 0. -/
def map_battery_status_to_percentage (status : String) : Nat :=
  if status = "full" then 100
  else if status = "middle" then 75
  else if status = "low" then 25
  else if status = "dead" then 0
  else 0

/-- The value `poll_status` publishes on `/battery_percentage` for a
legacy status payload: always a number. -/
def published_battery_percentage (resp : List Nat) : MqttValue :=
  MqttValue.num (map_battery_status_to_percentage (battery_status_for resp))

/-- Modelled from the claim's wording, for comparison: byte 134 maps
`1 → 0`, `2 → 25`, `3 → 75`, `4 → 100`, anything else (including a
short payload) to the string `"unknown"`. -/
def claimed_battery_percentage (resp : List Nat) : MqttValue :=
  if resp.length ≤ 134 then MqttValue.str "unknown"
  else if resp.getD 134 0 = 1 then MqttValue.num 0
  else if resp.getD 134 0 = 2 then MqttValue.num 25
  else if resp.getD 134 0 = 3 then MqttValue.num 75
  else if resp.getD 134 0 = 4 then MqttValue.num 100
  else MqttValue.str "unknown"

set_option maxRecDepth 4096 in
/-- C9 counterexample -- For a payload whose byte 134 is 5, the code
publishes the number 0 (the dictionary default), not `"unknown"` as
claimed. -/
theorem battery_percentage_cex :
    published_battery_percentage (List.replicate 134 0 ++ [5]) = MqttValue.num 0 ∧
    claimed_battery_percentage (List.replicate 134 0 ++ [5]) =
      MqttValue.str "unknown" ∧
    MqttValue.num 0 ≠ MqttValue.str "unknown" := by
  refine ⟨by decide, by decide, by decide⟩

/-- C9 (amended) -- The published battery percentage is always a
number: byte 134 maps `1 → 0`, `2 → 25`, `3 → 75`, `4 → 100`, and every
other value (including a payload too short to contain byte 134) maps to
0, because `battery_status_for` reports `"unknown"` and the percentage
dictionary's default is 0. -/
theorem battery_percentage_amended :
    ∀ resp : List Nat,
      published_battery_percentage resp =
        MqttValue.num
          (if resp.length ≤ 134 then 0
            else if resp.getD 134 0 = 1 then 0
            else if resp.getD 134 0 = 2 then 25
            else if resp.getD 134 0 = 3 then 75
            else if resp.getD 134 0 = 4 then 100
            else 0) := by
  intro resp
  rw [published_battery_percentage, battery_status_for]
  by_cases hl : resp.length ≤ 134
  · rw [if_pos hl, if_pos hl]
    decide
  · rw [if_neg hl, if_neg hl]
    by_cases h1 : resp.getD 134 0 = 1
    · rw [if_pos h1, if_pos h1]
      decide
    · rw [if_neg h1, if_neg h1]
      by_cases h2 : resp.getD 134 0 = 2
      · rw [if_pos h2, if_pos h2]
        decide
      · rw [if_neg h2, if_neg h2]
        by_cases h3 : resp.getD 134 0 = 3
        · rw [if_pos h3, if_pos h3]
          decide
        · rw [if_neg h3, if_neg h3]
          by_cases h4 : resp.getD 134 0 = 4
          · rw [if_pos h4, if_pos h4]
            decide
          · rw [if_neg h4, if_neg h4]
            decide

/-- Bytes written back by `AMTServer._handle_heartbeat`
(`isecnet/server/tcp_server.py`): `create_simple_ack().build()`. -/
def handle_heartbeat_writes : List Nat :=
  ISECNetFrame.create_simple_ack.build

/-- Bytes written back by `AMTServer._handle_connection_info` for an
identification (0x94) frame: the same built simple-ack frame. -/
def handle_connection_info_writes : List Nat :=
  ISECNetFrame.create_simple_ack.build

/-- C4 counterexample -- The auto-ack reply written for both heartbeat
and identification frames is the built simple-ack frame
`01 FE 00` (length byte 0x01, command 0xFE, checksum 0x00), which is
not the claimed single bare byte `FE`. -/
theorem simple_ack_bytes_cex :
    handle_heartbeat_writes = [0x01, 0xFE, 0x00] ∧
    handle_connection_info_writes = [0x01, 0xFE, 0x00] ∧
    handle_heartbeat_writes ≠ [0xFE] := by
  refine ⟨by decide, by decide, by decide⟩

/-- C4 (amended) -- For every inbound heartbeat (0xF7) and
identification (0x94) frame with auto-ack enabled, the server writes
back exactly the three bytes `01 FE 00`: the simple-ack frame (command
byte 0xFE, empty content) wrapped with its length byte and checksum. -/
theorem simple_ack_bytes_amended :
    handle_heartbeat_writes = [0x01, 0xFE, 0x00] ∧
    handle_connection_info_writes = [0x01, 0xFE, 0x00] ∧
    handle_heartbeat_writes = ISECNetFrame.build ⟨0xFE, []⟩ ∧
    handle_connection_info_writes = ISECNetFrame.build ⟨0xFE, []⟩ := by
  refine ⟨by decide, by decide, rfl, rfl⟩

/-- `AMTConnection` (`isecnet/server/connection_manager.py`): id plus
the single-use `pending_response` slot (modelled abstractly). -/
structure AMTConnection where
  id : String
  pending_response : Option Nat
deriving DecidableEq, Repr

/-- `ConnectionManager.get`: dictionary lookup by connection id. -/
def ConnectionManager.get (conns : List (String × AMTConnection))
    (connId : String) : Option AMTConnection :=
  (conns.find? (fun p => p.1 == connId)).map Prod.snd

/-- An observable effect of `AMTServer._send_and_wait`, in program
order. -/
inductive ServerEvent where
  | createPendingResponse
  | writeBytes (data : List Nat)
  | awaitResponse
deriving DecidableEq, Repr

/-- The errors `send_command` / `_send_and_wait` raise. -/
inductive SendError where
  | connectionNotFound (connId : String)
  | responseTimeout
deriving DecidableEq, Repr

/-- The effect sequence of `AMTServer._send_and_wait`
(`isecnet/server/tcp_server.py`): when waiting, the pending-response
slot is created first, then the frame bytes are written, then the
response is awaited; when not waiting, only the write happens. -/
def sendAndWaitEvents (frame : ISECNetFrame) (waitResponse : Bool) :
    List ServerEvent :=
  (if waitResponse then [ServerEvent.createPendingResponse] else []) ++
    [ServerEvent.writeBytes frame.build] ++
    (if waitResponse then [ServerEvent.awaitResponse] else [])

/-- `AMTServer.send_command`: look up the connection, fail with a
connection-not-found error when absent, otherwise perform
`_send_and_wait`. -/
def send_command (conns : List (String × AMTConnection)) (connId : String)
    (frame : ISECNetFrame) (waitResponse : Bool) :
    Except SendError (List ServerEvent) :=
  match ConnectionManager.get conns connId with
  | none => Except.error (SendError.connectionNotFound connId)
  | some _ => Except.ok (sendAndWaitEvents frame waitResponse)

/-- The timeout branch of `_send_and_wait`: clear the slot
(`connection.pending_response = None`) and raise the timeout error. -/
def onResponseTimeout (conn : AMTConnection) : AMTConnection × SendError :=
  ({ conn with pending_response := none }, SendError.responseTimeout)

/-- C7 -- `send_command` fails with a connection-not-found error when
the connection id is absent; when waiting for a response it creates the
pending-response slot strictly before writing the command bytes (the
event sequence is create, write, await); and on expiry of the response
timeout the slot is cleared (it is `none` afterwards) and the call
fails with the response-timeout error. -/
theorem send_command_slot_discipline :
    (∀ (conns : List (String × AMTConnection)) (connId : String)
      (frame : ISECNetFrame) (w : Bool),
      ConnectionManager.get conns connId = none →
      send_command conns connId frame w =
        Except.error (SendError.connectionNotFound connId)) ∧
    (∀ (conns : List (String × AMTConnection)) (connId : String)
      (frame : ISECNetFrame) (c : AMTConnection),
      ConnectionManager.get conns connId = some c →
      send_command conns connId frame true =
        Except.ok [ServerEvent.createPendingResponse,
          ServerEvent.writeBytes frame.build, ServerEvent.awaitResponse]) ∧
    (∀ conn : AMTConnection,
      (onResponseTimeout conn).1.pending_response = none ∧
      (onResponseTimeout conn).2 = SendError.responseTimeout) := by
  refine ⟨?_, ?_, ?_⟩
  · intro conns connId frame w hget
    rw [send_command, hget]
  · intro conns connId frame c hget
    rw [send_command, hget]
    rfl
  · intro conn
    exact ⟨rfl, rfl⟩

/-- Witness for `send_command_slot_discipline` on a concrete registry:
an empty registry has no connection `"a"`, and a one-entry registry
serves it. -/
theorem send_command_slot_discipline_witness :
    send_command [] "a" ⟨0xE9, [0xFE]⟩ true =
      Except.error (SendError.connectionNotFound "a") ∧
    send_command [("a", ⟨"a", none⟩)] "a" ⟨0xE9, [0xFE]⟩ true =
      Except.ok [ServerEvent.createPendingResponse,
        ServerEvent.writeBytes (ISECNetFrame.build ⟨0xE9, [0xFE]⟩),
        ServerEvent.awaitResponse] ∧
    (onResponseTimeout ⟨"a", some 7⟩).1.pending_response = none :=
  ⟨send_command_slot_discipline.1 [] "a" ⟨0xE9, [0xFE]⟩ true rfl,
   send_command_slot_discipline.2.1 [("a", ⟨"a", none⟩)] "a" ⟨0xE9, [0xFE]⟩
     ⟨"a", none⟩ rfl,
   (send_command_slot_discipline.2.2 ⟨"a", some 7⟩).1⟩
